import Mathlib

/-!
Verification of the stellar-structure integrator of StellarStruc-NG.ipynb
(repository lectures-fall2018).

The notebook's RUN CODE cell integrates the Newtonian stellar-structure
ODEs outward on a fixed radial grid, watching the first component of the
state (which the code names `pressure`) for the surface-finding test, then
truncates the solution and converts the resulting radius and mass to
physical units.

Modelling choices:
* Python floats are modelled as elements of a linear ordered field; the
  concrete instantiations below use `ℚ` (for fully computable runs) and
  `ℝ` (where `Real.pi` or `Real.sqrt` is needed).
* The numerical ODE solver (`scipy.integrate.odeint` applied to
  `struceqs`) is modelled as a black-box parameter `step` that returns the
  state at the right end of each grid interval, exactly the contract the
  loop relies on.
* `np.pi` is passed as an explicit parameter `pi`; the claims about the
  physics right-hand side instantiate it with `Real.pi`.
* The float NaN test `pressure != pressure` is transcribed literally; over
  an ordered field it is identically false.
-/

namespace StellarStruc

variable {α : Type} [LinearOrderedField α]

/-- Piecewise-linear interpolation walk over a list of knots, mirroring
scipy's `interp1d(..., kind='linear')` on a sorted table: a query below
the first knot or above the last knot yields the fill value `fv`;
otherwise the two bracketing knots interpolate linearly. -/
def interp1dGo (fv : α) : α × α → List (α × α) → α → α
  | (x0, z0), [], x => if x = x0 then z0 else fv
  | (x0, z0), (x1, z1) :: tl, x =>
      if x < x0 then fv
      else if x ≤ x1 then z0 + (z1 - z0) * (x - x0) / (x1 - x0)
      else interp1dGo fv (x1, z1) tl x

/-- Model of `scipy.interpolate.interp1d(xs, ys, kind='linear',
bounds_error=False, fill_value=fv)` applied to a query `x`. -/
def interp1d (xs ys : List α) (fv : α) (x : α) : α :=
  match xs.zip ys with
  | [] => fv
  | q :: tl => interp1dGo fv q tl x

/-- Model of `scipy.interpolate.interp1d(xs, ys, kind='linear')` with the
default `bounds_error=True`: evaluation outside the knot range raises,
modelled as `none`. -/
def interp1dStrict (xs ys : List α) (x : α) : Option α :=
  match xs.head?, xs.getLast? with
  | some a, some b => if x < a ∨ b < x then none else some (interp1d xs ys 0 x)
  | _, _ => none

/-- Model of `np.linspace(a, b, n)`: `n` evenly spaced points from `a` to
`b` inclusive. -/
def linspace (a b : α) (n : ℕ) : List α :=
  (List.range n).map (fun k : ℕ => a + (b - a) * (k : α) / ((n : α) - 1))

/-- Model of `Mu(rho)` built by `intpeos`: total energy density as a function of
rest-mass density, `interp1d(rhodat, mudat, kind='linear',
bounds_error=False, fill_value=0.)`. -/
def Mu (rhodat mudat : List α) (rho : α) : α :=
  interp1d rhodat mudat 0 rho

/-- Model of `p(mu)` built by `intpeos`: pressure as a function of total energy
density, `interp1d(mudat, pdat, kind='linear', bounds_error=False,
fill_value=0.)`. -/
def p (mudat pdat : List α) (mu : α) : α :=
  interp1d mudat pdat 0 mu

/-- Model of `dpdmu(mu)` built by `intpeos`: interpolation of the finite-difference
gradient `np.gradient(pdat)/np.gradient(mudat)` against `mudat`; recorded
for completeness of the interpolator contract (the integrator never calls
it). The gradient lists are taken as given data. -/
def dpdmu (mudat dpdat : List α) (mu : α) : α :=
  interp1d mudat dpdat 0 mu

/-- Termination test of the RUN CODE loop, transcribed from
`if (pressure < tol or pressure != pressure)`. Over an ordered field the
second disjunct (the float NaN test) is identically false. -/
def fireTest (tol v : α) : Bool :=
  decide (v < tol) || decide (v ≠ v)

/-- Function `hydro(y, r)` of StellarStruc-NG: `-(mu)*(m)/(r**2)`. -/
def hydro (y : α × α) (r : α) : α :=
  -(y.1) * (y.2) / (r ^ 2)

/-- Function `mass(y, r)` of StellarStruc-NG: `4.*np.pi*r**2*mu`, with `np.pi`
passed as the parameter `pi`. -/
def mass (pi : α) (y : α × α) (r : α) : α :=
  4 * pi * r ^ 2 * y.1

/-- Function `struceqs(y, r)` of StellarStruc-NG: the coupled ODE right-hand side
`(hydro(y,r), mass(y,r))` handed to the solver. -/
def struceqs (pi : α) (y : α × α) (r : α) : α × α :=
  (hydro y r, mass pi y r)

/-- Central boundary state of the RUN CODE cell:
`muc = Mu(rhoc)` and `y0 = [muc, 4.*np.pi*stp**3*muc/3.]`. -/
def y0NG (pi : α) (rhodat mudat : List α) (rhoc stp : α) : α × α :=
  let muc := Mu rhodat mudat rhoc
  (muc, 4 * pi * stp ^ 3 * muc / 3)

/-- The integration loop of the RUN CODE cell. Starting at grid index `i`
with state `y` and `rem` iterations remaining, each iteration integrates
over `[rlist[i], rlist[i+1]]` via the black-box solver `step`, stores the
new state, and applies the surface test to the new state's first
component. Returns the list of states computed at indices `i+1, i+2, ...`,
the final value of the Python loop variable `i`, and whether the test
fired (`break`). After normal exhaustion the Python loop variable holds
the last index processed, hence the `i - 1` in the base case. -/
def runLoopAux (step : α × α → α → α → α × α) (tol : α) (rl : List α) :
    ℕ → α × α → ℕ → List (α × α) × ℕ × Bool
  | i, _, 0 => ([], i - 1, false)
  | i, y, rem + 1 =>
      let y1 := step y (rl.getD i 0) (rl.getD (i + 1) 0)
      if fireTest tol y1.1 then ([y1], i, true)
      else
        let r := runLoopAux step tol rl (i + 1) y1 rem
        (y1 :: r.1, r.2.1, r.2.2)

/-- The abstract sequence of states the loop computes: `ysSeq j` is
`ys[j]`, obtained by folding the solver along the grid from `y0`. -/
def ysSeq (step : α × α → α → α → α × α) (rl : List α) (y0 : α × α) : ℕ → α × α
  | 0 => y0
  | j + 1 => step (ysSeq step rl y0 j) (rl.getD j 0) (rl.getD (j + 1) 0)

/-- First grid step at which the surface test fires, scanning indices
`i, i+1, ...` for `rem` iterations. The tested quantity at step `i` is
`(ysSeq (i+1)).1`, the first component (the energy density) of the newly
integrated state. -/
def firstFireAux (step : α × α → α → α → α × α) (tol : α) (rl : List α)
    (y0 : α × α) : ℕ → ℕ → Option ℕ
  | _, 0 => none
  | i, rem + 1 =>
      if fireTest tol (ysSeq step rl y0 (i + 1)).1 then some i
      else firstFireAux step tol rl y0 (i + 1) rem

/-- The state sequence of one RUN CODE execution before truncation:
`ysSeqNG ... j` is `ys[j]` for the grid `np.linspace(stp, 10., pts)` and
the central boundary state `y0NG`. -/
def ysSeqNG (pi : α) (step : α × α → α → α → α × α)
    (rhodat mudat : List α) (rhoc stp : α) (pts : ℕ) : ℕ → α × α :=
  ysSeq step (linspace stp (10 : α) pts) (y0NG pi rhodat mudat rhoc stp)

/-- The first loop index of one RUN CODE execution at which the surface
test fires, if any. -/
def firstFireNG (pi : α) (step : α × α → α → α → α × α)
    (rhodat mudat : List α) (rhoc stp tol : α) (pts : ℕ) : Option ℕ :=
  firstFireAux step tol (linspace stp (10 : α) pts)
    (y0NG pi rhodat mudat rhoc stp) 0 (pts - 1)

/-- Result record of one RUN CODE execution: the truncated radius grid,
the truncated `mu` and `m` solution data, the surface radius `Rsol`, the
total mass `Msol`, the final loop index, and whether the surface test
fired. -/
structure NGResult (α : Type) where
  rlistT : List α
  musoldat : List α
  msoldat : List α
  Rsol : α
  Msol : α
  iFin : ℕ
  fired : Bool

/-- The RUN CODE cell of StellarStruc-NG.ipynb: initialize `y0` from the
central density, walk the grid `rlist = np.linspace(stp, 10., pts)` with
the solver, stop at the first index whose new state fails the surface
test, set `Rsol` (initialized to `rlist[-1]`, overwritten with `rs[0]` on
`break`), truncate the stored solution to indices `0..i`, and evaluate
`Msol = msol(Rsol)` where `msol` interpolates the truncated mass data with
`bounds_error=False, fill_value=msoldat[-1]`. -/
def runNG (pi : α) (step : α × α → α → α → α × α)
    (rhodat mudat pdat : List α) (rhoc stp tol : α) (pts : ℕ) : NGResult α :=
  let y0 := y0NG pi rhodat mudat rhoc stp
  let rlist := linspace stp (10 : α) pts
  let L := runLoopAux step tol rlist 0 y0 (pts - 1)
  let i := L.2.1
  let fired := L.2.2
  let states := y0 :: L.1
  let Rsol := if fired then rlist.getD i 0 else rlist.getD (pts - 1) 0
  let rlistT := rlist.take (i + 1)
  let musoldat := (states.take (i + 1)).map Prod.fst
  let msoldat := (states.take (i + 1)).map Prod.snd
  let Msol := interp1d rlistT msoldat (msoldat.getLastD 0) Rsol
  ⟨rlistT, musoldat, msoldat, Rsol, Msol, i, fired⟩

/-- The RUN CODE cell guarded by the scipy `interp1d` construction
requirement: `intpeos` raises at interpolator construction when a knot
array has fewer than two entries, and this is the only failure that can
occur before the integration loop; no other validation exists. -/
def runNGChecked (pi : α) (step : α × α → α → α → α × α)
    (rhodat mudat pdat : List α) (rhoc stp tol : α) (pts : ℕ) :
    Option (NGResult α) :=
  if 2 ≤ rhodat.length ∧ 2 ≤ mudat.length then
    some (runNG pi step rhodat mudat pdat rhoc stp tol pts)
  else none

/-- Model of `musol = interp1d(rlist, musoldat, kind='linear')` of the RUN CODE
cell, with the default `bounds_error=True` (no fill value). -/
def musol (res : NGResult α) (r : α) : Option α :=
  interp1dStrict res.rlistT res.musoldat r

/-- Model of `psol = interp1d(rlist, p(musoldat), kind='linear')` of the RUN CODE
cell, with the default `bounds_error=True` (no fill value). -/
def psol (mudat pdat : List α) (res : NGResult α) (r : α) : Option α :=
  interp1dStrict res.rlistT (res.musoldat.map (p mudat pdat)) r

/-- Modelled from the spec: the integration loop with the termination test
the spec describes, namely applied to `pressure(mu_{i+1})` ("extract the
pressure at that point via pressure(mu_{i+1})") instead of to `mu_{i+1}`
itself. `pf` is the interpolated pressure function. Used only to compare
the spec's words against `runLoopAux`. -/
def runLoopAuxSpec (pf : α → α) (step : α × α → α → α → α × α) (tol : α)
    (rl : List α) : ℕ → α × α → ℕ → List (α × α) × ℕ × Bool
  | i, _, 0 => ([], i - 1, false)
  | i, y, rem + 1 =>
      let y1 := step y (rl.getD i 0) (rl.getD (i + 1) 0)
      if fireTest tol (pf y1.1) then ([y1], i, true)
      else
        let r := runLoopAuxSpec pf step tol rl (i + 1) y1 rem
        (y1 :: r.1, r.2.1, r.2.2)

/-- Modelled from the spec: the RUN CODE cell with the spec's termination
test (pressure obtained through the interpolated equation of state). -/
def runNGSpec (pi : α) (step : α × α → α → α → α × α)
    (rhodat mudat pdat : List α) (rhoc stp tol : α) (pts : ℕ) : NGResult α :=
  let y0 := y0NG pi rhodat mudat rhoc stp
  let rlist := linspace stp (10 : α) pts
  let L := runLoopAuxSpec (p mudat pdat) step tol rlist 0 y0 (pts - 1)
  let i := L.2.1
  let fired := L.2.2
  let states := y0 :: L.1
  let Rsol := if fired then rlist.getD i 0 else rlist.getD (pts - 1) 0
  let rlistT := rlist.take (i + 1)
  let musoldat := (states.take (i + 1)).map Prod.fst
  let msoldat := (states.take (i + 1)).map Prod.snd
  let Msol := interp1d rlistT msoldat (msoldat.getLastD 0) Rsol
  ⟨rlistT, musoldat, msoldat, Rsol, Msol, i, fired⟩

/-- Newton's constant in cgs units, from the notebook's constants cell. -/
noncomputable def G : ℝ := 6.674e-8

/-- Speed of light in cm/s, from the notebook's constants cell. -/
noncomputable def c : ℝ := 2.998e10

/-- Solar mass in g, from the notebook's constants cell. -/
noncomputable def Msun : ℝ := 1.988e33

/-- Nuclear density in g/cm^3, from the notebook's constants cell. -/
noncomputable def rhonuc : ℝ := 2.7e14

/-- Unit conversion `R = Rsol*c/(1e5*(G*rhonuc)**0.5)` of the OUTPUT
cell, converting the code-unit radius to km; the float power `**0.5` is
modelled as `Real.sqrt`. -/
noncomputable def Rkm (Rsol : ℝ) : ℝ :=
  Rsol * c / (1e5 * Real.sqrt (G * rhonuc))

/-- Unit conversion `M = Msol*c**3/(G*(G*rhonuc)**0.5*Msun)` of the
OUTPUT cell, converting the code-unit mass to solar masses. -/
noncomputable def MsolarMass (Msol : ℝ) : ℝ :=
  Msol * c ^ 3 / (G * Real.sqrt (G * rhonuc) * Msun)

/-- Modelled from the spec: the algebraic inverse of the radius
conversion, used for the round-trip property. -/
noncomputable def RkmInv (x : ℝ) : ℝ :=
  x * (1e5 * Real.sqrt (G * rhonuc)) / c

/-- Modelled from the spec: the algebraic inverse of the mass conversion,
used for the round-trip property. -/
noncomputable def MsolarMassInv (x : ℝ) : ℝ :=
  x * (G * Real.sqrt (G * rhonuc) * Msun) / c ^ 3

/-- Constant one-step solver, used to build concrete runs. -/
def stepConst : ℚ × ℚ → ℚ → ℚ → ℚ × ℚ := fun y _ _ => y

/-- One-step solver that halves the energy density, used to build concrete
runs whose surface test fires after several steps. -/
def stepHalf : ℚ × ℚ → ℚ → ℚ → ℚ × ℚ := fun y _ _ => (y.1 / 2, y.2)

/-- One-step solver that increases the energy density and decreases the
mass, exhibiting a solver output the loop accepts without enforcing any
monotonicity. -/
def stepBad : ℚ × ℚ → ℚ → ℚ → ℚ × ℚ := fun y _ _ => (y.1 + 1, y.2 - 1)

/-- Constant one-step solver over the reals. -/
def stepConstR : ℝ × ℝ → ℝ → ℝ → ℝ × ℝ := fun y _ _ => y

/-- Pointwise non-negativity of a solution data list. -/
def nonNeg (l : List α) : Prop := ∀ x ∈ l, 0 ≤ x

/-- Monotone non-decrease along consecutive entries of a list. -/
def nonDecr (l : List α) : Prop := l.Chain' (· ≤ ·)

/-- Monotone non-increase along consecutive entries of a list. -/
def nonIncr (l : List α) : Prop := l.Chain' (fun a b => b ≤ a)

/-! ### Characterization of the integration loop -/

lemma fireTest_true_iff (tol v : α) : fireTest tol v = true ↔ v < tol := by
  simp [fireTest]

lemma fireTest_false_iff (tol v : α) : fireTest tol v = false ↔ tol ≤ v := by
  simp [fireTest, not_lt]

lemma firstFireAux_some {step : α × α → α → α → α × α} {tol : α}
    {rl : List α} {y0 : α × α} : ∀ {rem i k : ℕ},
    firstFireAux step tol rl y0 i rem = some k → i ≤ k ∧ k < i + rem := by
  intro rem
  induction rem with
  | zero => intro i k h; simp [firstFireAux] at h
  | succ n ih =>
      intro i k h
      rw [firstFireAux] at h
      by_cases hf : fireTest tol (ysSeq step rl y0 (i + 1)).1 = true
      · rw [if_pos hf] at h
        cases h
        omega
      · rw [if_neg hf] at h
        have := ih h
        omega

lemma take_range_map {β : Type} (f : ℕ → β) (m t : ℕ) :
    ((List.range m).map f).take t = (List.range (min t m)).map f := by
  rw [← List.map_take, List.take_range]

lemma cons_map_range_succ {β : Type} (f : ℕ → β) (n : ℕ) :
    f 0 :: (List.range n).map (fun j => f (j + 1)) = (List.range (n + 1)).map f := by
  rw [List.range_succ_eq_map, List.map_cons, List.map_map]
  rfl

/-- Master characterization of the integration loop: starting at index `i`
in state `ys[i]`, the loop returns the states at indices `i+1, ...` up to
and including the first failing one, the index at which the test fired
(or the last processed index), and the fired flag, all expressed through
`ysSeq` and `firstFireAux`. -/
lemma runLoopAux_eq (step : α × α → α → α → α × α) (tol : α) (rl : List α)
    (y0 : α × α) : ∀ (rem i : ℕ),
    runLoopAux step tol rl i (ysSeq step rl y0 i) rem =
      (match firstFireAux step tol rl y0 i rem with
       | some k =>
          ((List.range (k + 1 - i)).map (fun j => ysSeq step rl y0 (i + 1 + j)),
            k, true)
       | none =>
          ((List.range rem).map (fun j => ysSeq step rl y0 (i + 1 + j)),
            i + rem - 1, false)) := by
  intro rem
  induction rem with
  | zero =>
      intro i
      simp [runLoopAux, firstFireAux]
  | succ n ih =>
      intro i
      have hy : step (ysSeq step rl y0 i) (rl.getD i 0) (rl.getD (i + 1) 0) =
          ysSeq step rl y0 (i + 1) := rfl
      rw [runLoopAux, firstFireAux]
      simp only [hy]
      by_cases hf : fireTest tol (ysSeq step rl y0 (i + 1)).1 = true
      · rw [if_pos hf, if_pos hf]
        have h1 : i + 1 - i = 1 := by omega
        simp [h1, List.range_succ]
      · rw [if_neg hf, if_neg hf]
        rw [ih (i + 1)]
        cases hk : firstFireAux step tol rl y0 (i + 1) n with
        | none =>
            simp only []
            refine Prod.ext ?_ (Prod.ext ?_ rfl)
            · show ysSeq step rl y0 (i + 1) ::
                  (List.range n).map (fun j => ysSeq step rl y0 (i + 1 + 1 + j)) =
                  (List.range (n + 1)).map (fun j => ysSeq step rl y0 (i + 1 + j))
              have harg : ∀ j : ℕ, i + 1 + 1 + j = i + 1 + (j + 1) := by omega
              calc ysSeq step rl y0 (i + 1) ::
                    (List.range n).map (fun j => ysSeq step rl y0 (i + 1 + 1 + j))
                  = ysSeq step rl y0 (i + 1 + 0) ::
                    (List.range n).map (fun j => ysSeq step rl y0 (i + 1 + (j + 1))) := by
                    simp only [Nat.add_zero]
                    congr 1
                    exact List.map_congr_left fun j _ => by rw [harg j]
                _ = (List.range (n + 1)).map (fun j => ysSeq step rl y0 (i + 1 + j)) :=
                    cons_map_range_succ (fun j => ysSeq step rl y0 (i + 1 + j)) n
            · show i + 1 + n - 1 = i + (n + 1) - 1
              omega
        | some k =>
            have hb := firstFireAux_some hk
            simp only []
            refine Prod.ext ?_ rfl
            show ysSeq step rl y0 (i + 1) ::
                (List.range (k + 1 - (i + 1))).map (fun j => ysSeq step rl y0 (i + 1 + 1 + j)) =
                (List.range (k + 1 - i)).map (fun j => ysSeq step rl y0 (i + 1 + j))
            have harg : ∀ j : ℕ, i + 1 + 1 + j = i + 1 + (j + 1) := by omega
            have hd : k + 1 - i = (k + 1 - (i + 1)) + 1 := by omega
            rw [hd]
            calc ysSeq step rl y0 (i + 1) ::
                  (List.range (k + 1 - (i + 1))).map (fun j => ysSeq step rl y0 (i + 1 + 1 + j))
                = ysSeq step rl y0 (i + 1 + 0) ::
                  (List.range (k + 1 - (i + 1))).map
                    (fun j => ysSeq step rl y0 (i + 1 + (j + 1))) := by
                  simp only [Nat.add_zero]
                  congr 1
                  exact List.map_congr_left fun j _ => by rw [harg j]
              _ = (List.range ((k + 1 - (i + 1)) + 1)).map
                    (fun j => ysSeq step rl y0 (i + 1 + j)) :=
                  cons_map_range_succ (fun j => ysSeq step rl y0 (i + 1 + j)) _

/-- The RUN CODE loop instance of the master characterization, stated for
the concrete grid, central state, and iteration budget of `runNG`. -/
lemma runNG_loop_eq (pi : α) (step : α × α → α → α → α × α)
    (rhodat mudat : List α) (rhoc stp tol : α) (pts : ℕ) :
    runLoopAux step tol (linspace stp (10 : α) pts) 0
        (y0NG pi rhodat mudat rhoc stp) (pts - 1) =
      (match firstFireNG pi step rhodat mudat rhoc stp tol pts with
       | some k =>
          ((List.range (k + 1)).map
              (fun j => ysSeqNG pi step rhodat mudat rhoc stp pts (j + 1)),
            k, true)
       | none =>
          ((List.range (pts - 1)).map
              (fun j => ysSeqNG pi step rhodat mudat rhoc stp pts (j + 1)),
            pts - 2, false)) := by
  have h0 : ysSeq step (linspace stp (10 : α) pts)
      (y0NG pi rhodat mudat rhoc stp) 0 = y0NG pi rhodat mudat rhoc stp := rfl
  have h := runLoopAux_eq step tol (linspace stp (10 : α) pts)
      (y0NG pi rhodat mudat rhoc stp) (pts - 1) 0
  rw [h0] at h
  rw [h]
  unfold firstFireNG ysSeqNG
  cases hk : firstFireAux step tol (linspace stp (10 : α) pts)
      (y0NG pi rhodat mudat rhoc stp) 0 (pts - 1) with
  | some k =>
      simp only []
      have h1 : k + 1 - 0 = k + 1 := by omega
      rw [h1]
      congr 1
      exact List.map_congr_left fun j _ => by
        have : 0 + 1 + j = j + 1 := by omega
        rw [this]
  | none =>
      simp only []
      refine congrArg₂ _ ?_ (by congr 1; omega)
      exact List.map_congr_left fun j _ => by
        have : 0 + 1 + j = j + 1 := by omega
        rw [this]

lemma runNG_fired (pi : α) (step : α × α → α → α → α × α)
    (rhodat mudat pdat : List α) (rhoc stp tol : α) (pts : ℕ) :
    (runNG pi step rhodat mudat pdat rhoc stp tol pts).fired =
      (firstFireNG pi step rhodat mudat rhoc stp tol pts).isSome := by
  simp only [runNG]
  rw [runNG_loop_eq]
  cases hk : firstFireNG pi step rhodat mudat rhoc stp tol pts <;> simp

lemma runNG_iFin (pi : α) (step : α × α → α → α → α × α)
    (rhodat mudat pdat : List α) (rhoc stp tol : α) (pts : ℕ) :
    (runNG pi step rhodat mudat pdat rhoc stp tol pts).iFin =
      (firstFireNG pi step rhodat mudat rhoc stp tol pts).getD (pts - 2) := by
  simp only [runNG]
  rw [runNG_loop_eq]
  cases hk : firstFireNG pi step rhodat mudat rhoc stp tol pts <;> simp

lemma runNG_musoldat (pi : α) (step : α × α → α → α → α × α)
    (rhodat mudat pdat : List α) (rhoc stp tol : α) (pts : ℕ) :
    (runNG pi step rhodat mudat pdat rhoc stp tol pts).musoldat =
      (List.range ((runNG pi step rhodat mudat pdat rhoc stp tol pts).iFin + 1)).map
        (fun j => (ysSeqNG pi step rhodat mudat rhoc stp pts j).1) := by
  rw [runNG_iFin]
  simp only [runNG]
  rw [runNG_loop_eq]
  have hy0 : y0NG pi rhodat mudat rhoc stp = ysSeqNG pi step rhodat mudat rhoc stp pts 0 := rfl
  cases hk : firstFireNG pi step rhodat mudat rhoc stp tol pts with
  | some k =>
      simp only [Option.getD_some]
      rw [hy0, cons_map_range_succ (ysSeqNG pi step rhodat mudat rhoc stp pts) (k + 1),
        take_range_map, List.map_map]
      have hmin : (k + 1) ⊓ (k + 1 + 1) = k + 1 := by omega
      rw [hmin]
      rfl
  | none =>
      simp only [Option.getD_none]
      rw [hy0, cons_map_range_succ (ysSeqNG pi step rhodat mudat rhoc stp pts) (pts - 1),
        take_range_map, List.map_map]
      have hmin : (pts - 2 + 1) ⊓ (pts - 1 + 1) = pts - 2 + 1 := by omega
      rw [hmin]
      rfl

lemma runNG_msoldat (pi : α) (step : α × α → α → α → α × α)
    (rhodat mudat pdat : List α) (rhoc stp tol : α) (pts : ℕ) :
    (runNG pi step rhodat mudat pdat rhoc stp tol pts).msoldat =
      (List.range ((runNG pi step rhodat mudat pdat rhoc stp tol pts).iFin + 1)).map
        (fun j => (ysSeqNG pi step rhodat mudat rhoc stp pts j).2) := by
  rw [runNG_iFin]
  simp only [runNG]
  rw [runNG_loop_eq]
  have hy0 : y0NG pi rhodat mudat rhoc stp = ysSeqNG pi step rhodat mudat rhoc stp pts 0 := rfl
  cases hk : firstFireNG pi step rhodat mudat rhoc stp tol pts with
  | some k =>
      simp only [Option.getD_some]
      rw [hy0, cons_map_range_succ (ysSeqNG pi step rhodat mudat rhoc stp pts) (k + 1),
        take_range_map, List.map_map]
      have hmin : (k + 1) ⊓ (k + 1 + 1) = k + 1 := by omega
      rw [hmin]
      rfl
  | none =>
      simp only [Option.getD_none]
      rw [hy0, cons_map_range_succ (ysSeqNG pi step rhodat mudat rhoc stp pts) (pts - 1),
        take_range_map, List.map_map]
      have hmin : (pts - 2 + 1) ⊓ (pts - 1 + 1) = pts - 2 + 1 := by omega
      rw [hmin]
      rfl

lemma runNG_rlistT (pi : α) (step : α × α → α → α → α × α)
    (rhodat mudat pdat : List α) (rhoc stp tol : α) (pts : ℕ) :
    (runNG pi step rhodat mudat pdat rhoc stp tol pts).rlistT =
      (linspace stp (10 : α) pts).take
        ((runNG pi step rhodat mudat pdat rhoc stp tol pts).iFin + 1) := rfl

lemma runNG_Rsol (pi : α) (step : α × α → α → α → α × α)
    (rhodat mudat pdat : List α) (rhoc stp tol : α) (pts : ℕ) :
    (runNG pi step rhodat mudat pdat rhoc stp tol pts).Rsol =
      (if (runNG pi step rhodat mudat pdat rhoc stp tol pts).fired then
        (linspace stp (10 : α) pts).getD
          (runNG pi step rhodat mudat pdat rhoc stp tol pts).iFin 0
      else (linspace stp (10 : α) pts).getD (pts - 1) 0) := rfl

lemma runNG_Msol (pi : α) (step : α × α → α → α → α × α)
    (rhodat mudat pdat : List α) (rhoc stp tol : α) (pts : ℕ) :
    (runNG pi step rhodat mudat pdat rhoc stp tol pts).Msol =
      interp1d (runNG pi step rhodat mudat pdat rhoc stp tol pts).rlistT
        (runNG pi step rhodat mudat pdat rhoc stp tol pts).msoldat
        ((runNG pi step rhodat mudat pdat rhoc stp tol pts).msoldat.getLastD 0)
        (runNG pi step rhodat mudat pdat rhoc stp tol pts).Rsol := rfl

/-! ### Support lemmas: grid values, interpolation out of range, lists -/

lemma linspace_getD {a b : α} {n k : ℕ} (hk : k < n) :
    (linspace a b n).getD k 0 = a + (b - a) * (k : α) / ((n : α) - 1) := by
  unfold linspace
  rw [List.getD_eq_getElem?_getD, List.getElem?_map, List.getElem?_range hk]
  rfl

lemma linspace_head? {a b : α} {n : ℕ} (hn : 1 ≤ n) :
    (linspace a b n).head? = some a := by
  unfold linspace
  cases n with
  | zero => omega
  | succ m =>
      rw [List.range_succ_eq_map]
      simp

lemma linspace_val_lt {a b : α} {n k : ℕ} (h2 : 2 ≤ n) (hk : k < n - 1)
    (hab : a < b) :
    a + (b - a) * (k : α) / ((n : α) - 1) < b := by
  have hn1 : (0 : α) < (n : α) - 1 := by
    have : (1 : α) < (n : α) := by exact_mod_cast (by omega : 1 < n)
    linarith
  have hklt : (k : α) < (n : α) - 1 := by
    have hkn : (k : α) < ((n - 1 : ℕ) : α) := by exact_mod_cast hk
    rwa [Nat.cast_sub (by omega : 1 ≤ n), Nat.cast_one] at hkn
  have hba : (0 : α) < b - a := by linarith
  have hk0 : (0 : α) ≤ (k : α) := by positivity
  have hmain : (b - a) * (k : α) / ((n : α) - 1) < b - a := by
    rw [div_lt_iff₀ hn1]
    nlinarith
  linarith

lemma linspace_last {a b : α} {n : ℕ} (h2 : 2 ≤ n) :
    (linspace a b n).getD (n - 1) 0 = b := by
  rw [linspace_getD (by omega : n - 1 < n)]
  rw [Nat.cast_sub (by omega : 1 ≤ n), Nat.cast_one]
  have hne : (n : α) - 1 ≠ 0 := by
    have : (1 : α) < (n : α) := by exact_mod_cast (by omega : 1 < n)
    intro h
    linarith [sub_eq_zero.mp h]
  rw [mul_div_assoc, div_self hne]
  ring

lemma interp1dGo_gt {fv x : α} : ∀ (tl : List (α × α)) (hd : α × α),
    hd.1 < x → (∀ q ∈ tl, q.1 < x) → interp1dGo fv hd tl x = fv := by
  intro tl
  induction tl with
  | nil =>
      intro hd h1 _
      obtain ⟨x0, z0⟩ := hd
      simp only [interp1dGo]
      rw [if_neg]
      intro he
      rw [he] at h1
      exact lt_irrefl _ h1
  | cons q tl ih =>
      intro hd h1 hall
      obtain ⟨x0, z0⟩ := hd
      obtain ⟨x1, z1⟩ := q
      have hx1 : x1 < x := hall (x1, z1) (List.mem_cons_self _ _)
      simp only [interp1dGo]
      rw [if_neg (not_lt.mpr (le_of_lt h1)), if_neg (not_le.mpr hx1)]
      exact ih (x1, z1) hx1 (fun r hr => hall r (List.mem_cons_of_mem _ hr))

lemma interp1d_gt {xs ys : List α} {fv x : α}
    (h : ∀ z ∈ xs, z < x) : interp1d xs ys fv x = fv := by
  unfold interp1d
  cases hz : xs.zip ys with
  | nil => rfl
  | cons q tl =>
      apply interp1dGo_gt
      · have hq : q ∈ xs.zip ys := by rw [hz]; exact List.mem_cons_self _ _
        obtain ⟨a, b⟩ := q
        exact h a (List.of_mem_zip hq).1
      · intro r hr
        have hm : r ∈ xs.zip ys := by rw [hz]; exact List.mem_cons_of_mem _ hr
        obtain ⟨a, b⟩ := r
        exact h a (List.of_mem_zip hm).1

lemma interp1dStrict_gt_last {xs ys : List α} {x b : α}
    (hb : xs.getLast? = some b) (hx : b < x) : interp1dStrict xs ys x = none := by
  unfold interp1dStrict
  cases ha : xs.head? with
  | none => rw [hb]
  | some a =>
      rw [hb]
      exact if_pos (Or.inr hx)

lemma getLast?_map_range {β : Type} (f : ℕ → β) (n : ℕ) :
    ((List.range (n + 1)).map f).getLast? = some (f n) := by
  rw [List.range_succ, List.map_append]
  simp [List.getLast?_concat]

lemma getLastD_map_range {β : Type} (f : ℕ → β) (n : ℕ) (d : β) :
    ((List.range (n + 1)).map f).getLastD d = f n := by
  rw [List.getLastD_eq_getLast?, getLast?_map_range]
  rfl

lemma head?_map_range {β : Type} (f : ℕ → β) (n : ℕ) :
    ((List.range (n + 1)).map f).head? = some (f 0) := by
  rw [List.range_succ_eq_map]
  rfl

lemma chain'_map_range {β : Type} {Rr : β → β → Prop} (f : ℕ → β) (n : ℕ)
    (h : ∀ j, Rr (f j) (f (j + 1))) :
    List.Chain' Rr ((List.range n).map f) := by
  rw [List.chain'_map]
  cases n with
  | zero => simp
  | succ m =>
      rw [List.chain'_range_succ]
      intro i _
      exact h i

lemma ysSeq_stepConst (rl : List ℚ) (y0 : ℚ × ℚ) :
    ∀ j, ysSeq stepConst rl y0 j = y0 := by
  intro j
  induction j with
  | zero => rfl
  | succ n ih => simp [ysSeq, stepConst, ih]

/-! ### Concrete solver sequences for witnesses -/

lemma ysSeq_stepHalf (rl : List ℚ) (y0 : ℚ × ℚ) :
    ∀ j, ysSeq stepHalf rl y0 j = (y0.1 / 2 ^ j, y0.2) := by
  intro j
  induction j with
  | zero => simp [ysSeq]
  | succ n ih =>
      rw [ysSeq, ih]
      unfold stepHalf
      refine Prod.ext ?_ rfl
      show y0.1 / 2 ^ n / 2 = y0.1 / 2 ^ (n + 1)
      rw [div_div, pow_succ]

lemma ysSeq_stepBad (rl : List ℚ) (y0 : ℚ × ℚ) :
    ∀ j, ysSeq stepBad rl y0 j = (y0.1 + j, y0.2 - j) := by
  intro j
  induction j with
  | zero => simp [ysSeq]
  | succ n ih =>
      rw [ysSeq, ih]
      simp only [stepBad, Prod.mk.injEq]
      constructor <;> push_cast <;> ring

/-! ### Claims -/

/-- C5: for every state vector `(mu, m)` and every radius `r > 0`, the ODE
right-hand side supplied to the solver is `dmu/dr = -mu*m/r^2` (Newtonian
hydrostatic equilibrium in G=c=1 code units) and `dm/dr = 4*pi*r^2*mu`
(mass continuity). -/
theorem C5_struceqs_rhs (mu m r : ℝ) (hr : 0 < r) :
    struceqs Real.pi (mu, m) r = (-(mu * m) / r ^ 2, 4 * Real.pi * r ^ 2 * mu) := by
  unfold struceqs hydro mass
  simp only [Prod.mk.injEq]
  constructor
  · ring
  · trivial

/-- Witness for C5 at the concrete state (3, 5) and radius 2. -/
theorem C5_struceqs_rhs_witness :
    (0 : ℝ) < 2 ∧
    struceqs Real.pi ((3 : ℝ), 5) 2 = (-(3 * 5) / 2 ^ 2, 4 * Real.pi * 2 ^ 2 * 3) :=
  ⟨by norm_num, C5_struceqs_rhs 3 5 2 (by norm_num)⟩

/-- C9: the Unit Converter is the pure function
`R(km) = Rsol * c / (1e5 * sqrt(G*rhonuc))` and
`M(solar masses) = Msol * c^3 / (G * sqrt(G*rhonuc) * Msun)`, and applying
these formulas at the code-unit inputs 1.0 followed by their algebraic
inverses recovers the original values exactly (the real-number model of
the floating-point round trip). -/
theorem C9_unit_converter :
    (∀ x : ℝ, Rkm x = x * c / (1e5 * Real.sqrt (G * rhonuc))) ∧
    (∀ x : ℝ, MsolarMass x = x * c ^ 3 / (G * Real.sqrt (G * rhonuc) * Msun)) ∧
    RkmInv (Rkm 1) = 1 ∧ MsolarMassInv (MsolarMass 1) = 1 := by
  have hs : Real.sqrt (G * rhonuc) ≠ 0 := by
    refine ne_of_gt (Real.sqrt_pos.mpr ?_)
    norm_num [G, rhonuc]
  have hc : c ≠ 0 := by norm_num [c]
  have hG : G ≠ 0 := by norm_num [G]
  have hM : Msun ≠ 0 := by norm_num [Msun]
  refine ⟨fun x => rfl, fun x => rfl, ?_, ?_⟩
  · unfold RkmInv Rkm
    field_simp
  · unfold MsolarMassInv MsolarMass
    field_simp

/-- C6: for every central rest-mass density `rhoc`, initialization sets the
central energy density to `muc = Mu(rhoc)` via the interpolated EoS, and
the first stored state at the starting radius `stp` is
`(muc, (4*pi/3)*stp^3*muc)`. -/
theorem C6_initialization (step : ℝ × ℝ → ℝ → ℝ → ℝ × ℝ)
    (rhodat mudat pdat : List ℝ) (rhoc stp tol : ℝ) (pts : ℕ)
    (hpts : 1 ≤ pts) :
    (runNG Real.pi step rhodat mudat pdat rhoc stp tol pts).musoldat.head? =
        some (Mu rhodat mudat rhoc) ∧
    (runNG Real.pi step rhodat mudat pdat rhoc stp tol pts).msoldat.head? =
        some (4 * Real.pi / 3 * stp ^ 3 * Mu rhodat mudat rhoc) ∧
    (runNG Real.pi step rhodat mudat pdat rhoc stp tol pts).rlistT.head? =
        some stp := by
  refine ⟨?_, ?_, ?_⟩
  · rw [runNG_musoldat, head?_map_range]
    rfl
  · rw [runNG_msoldat, head?_map_range]
    have h2 : (ysSeqNG Real.pi step rhodat mudat rhoc stp pts 0).2 =
        4 * Real.pi * stp ^ 3 * Mu rhodat mudat rhoc / 3 := rfl
    rw [h2]
    congr 1
    ring
  · rw [runNG_rlistT, List.head?_take]
    rw [if_neg (by omega : ¬ (runNG Real.pi step rhodat mudat pdat rhoc stp tol pts).iFin + 1 = 0)]
    exact linspace_head? hpts

/-- Witness for C6 at a concrete equation of state and central density. -/
theorem C6_initialization_witness :
    1 ≤ 3 ∧
    ((runNG Real.pi stepConstR [0, 2] [0, 2] [0, 1] 1 (1/10) (1/100) 3).musoldat.head? =
        some (Mu [(0 : ℝ), 2] [0, 2] 1) ∧
     (runNG Real.pi stepConstR [0, 2] [0, 2] [0, 1] 1 (1/10) (1/100) 3).msoldat.head? =
        some (4 * Real.pi / 3 * (1/10) ^ 3 * Mu [(0 : ℝ), 2] [0, 2] 1) ∧
     (runNG Real.pi stepConstR [0, 2] [0, 2] [0, 1] 1 (1/10) (1/100) 3).rlistT.head? =
        some (1/10)) :=
  ⟨by norm_num, C6_initialization stepConstR [0, 2] [0, 2] [0, 1] 1 (1/10) (1/100) 3 (by norm_num)⟩

/-- Counterexample for C7: a non-positive central density (`rhoc = -1`) is
not rejected before the loop; the run reaches the integrator and returns a
normal result (`runNGChecked` is `some`), terminating through the in-loop
surface test because the out-of-range central density interpolates to zero
energy density. -/
theorem C7_counterexample :
    (-1 : ℚ) ≤ 0 ∧
    (runNGChecked (22/7 : ℚ) stepConst [0, 2] [0, 2] [0, 1] (-1) (1/10)
        (1/1000000) 3).isSome = true ∧
    (runNG (22/7 : ℚ) stepConst [0, 2] [0, 2] [0, 1] (-1) (1/10)
        (1/1000000) 3).fired = true := by
  refine ⟨by norm_num, ?_, ?_⟩
  · unfold runNGChecked
    rw [if_pos (by constructor <;> simp)]
    rfl
  · rw [runNG_fired]
    have hffn : firstFireNG (22/7 : ℚ) stepConst [0, 2] [0, 2] (-1) (1/10)
        (1/1000000) 3 = some 0 := by
      have hys := ysSeq_stepConst (linspace (1/10 : ℚ) 10 3)
        (y0NG (22/7 : ℚ) [0, 2] [0, 2] (-1) (1/10))
      have hy1 : (y0NG (22/7 : ℚ) [0, 2] [0, 2] (-1) (1/10)).1 =
          Mu [(0 : ℚ), 2] [0, 2] (-1) := rfl
      have hmuc : Mu [(0 : ℚ), 2] [0, 2] (-1) = 0 := by
        norm_num [Mu, interp1d, interp1dGo, List.zip_cons_cons]
      have hft : fireTest (1/1000000 : ℚ) 0 = true := by
        rw [fireTest_true_iff]
        norm_num
      unfold firstFireNG
      simp only [firstFireAux]
      rw [hys 1, hy1, hmuc, hft]
      simp
    rw [hffn]
    rfl

/-- C7 amended: the program performs no up-front validation; the only
failure possible before the integration loop is the scipy interpolator
construction error on a knot table with fewer than two rows. Non-monotonic
columns and non-positive central densities are not rejected and flow into
the integrator (see the counterexample for a non-positive density). -/
theorem C7_failfast_iff_short_table (pi : ℚ) (step : ℚ × ℚ → ℚ → ℚ → ℚ × ℚ)
    (rhodat mudat pdat : List ℚ) (rhoc stp tol : ℚ) (pts : ℕ) :
    runNGChecked pi step rhodat mudat pdat rhoc stp tol pts = none ↔
      rhodat.length < 2 ∨ mudat.length < 2 := by
  unfold runNGChecked
  by_cases h : 2 ≤ rhodat.length ∧ 2 ≤ mudat.length
  · rw [if_pos h]
    constructor
    · intro hc
      exact absurd hc (Option.some_ne_none _)
    · intro hc
      exact absurd hc (by omega)
  · rw [if_neg h]
    constructor
    · intro _
      omega
    · intro _
      rfl

/-- C1 amended: the quantity compared against the surface tolerance at
step `i` is `mu_{i+1} = ys[i+1][0]` itself, the first component of the
integrated state (which the code merely names `pressure`); the
interpolated pressure function is not applied in the test. Formally, the
run's termination is exactly governed by `firstFireNG`, whose test at step
`i` is `fireTest tol (ysSeq (i+1)).1`. -/
theorem C1_tested_quantity (pi : ℚ) (step : ℚ × ℚ → ℚ → ℚ → ℚ × ℚ)
    (rhodat mudat pdat : List ℚ) (rhoc stp tol : ℚ) (pts : ℕ) :
    (runNG pi step rhodat mudat pdat rhoc stp tol pts).fired =
        (firstFireNG pi step rhodat mudat rhoc stp tol pts).isSome ∧
    (runNG pi step rhodat mudat pdat rhoc stp tol pts).iFin =
        (firstFireNG pi step rhodat mudat rhoc stp tol pts).getD (pts - 2) ∧
    (∀ i rem : ℕ,
      firstFireAux step tol (linspace stp (10 : ℚ) pts)
          (y0NG pi rhodat mudat rhoc stp) i (rem + 1) =
        (if fireTest tol (ysSeqNG pi step rhodat mudat rhoc stp pts (i + 1)).1
         then some i
         else firstFireAux step tol (linspace stp (10 : ℚ) pts)
            (y0NG pi rhodat mudat rhoc stp) (i + 1) rem)) :=
  ⟨runNG_fired pi step rhodat mudat pdat rhoc stp tol pts,
   runNG_iFin pi step rhodat mudat pdat rhoc stp tol pts,
   fun _ _ => rfl⟩

/-- Counterexample for C1: with the 3-row toy table whose pressure column
is half the energy-density column, tolerance 3/4, and a constant solver,
the pressure of the integrated state is `p(mu_1) = 1/2 < 3/4`, yet the
code's run never fires (it compares `mu_1 = 1` itself against the
tolerance), while the spec-modelled variant that tests `p(mu_{i+1})` fires
at the first step. -/
theorem C1_counterexample :
    (ysSeqNG (22/7 : ℚ) stepConst [0, 2] [0, 2] 1 (1/10) 3 1).1 = 1 ∧
    p [(0 : ℚ), 2] [0, 1] 1 = 1/2 ∧
    ((1 : ℚ)/2 < 3/4 ∧ ¬ ((1 : ℚ) < 3/4)) ∧
    (runNG (22/7 : ℚ) stepConst [0, 2] [0, 2] [0, 1] 1 (1/10) (3/4) 3).fired
        = false ∧
    (runNGSpec (22/7 : ℚ) stepConst [0, 2] [0, 2] [0, 1] 1 (1/10) (3/4) 3).fired
        = true := by
  have hys := ysSeq_stepConst (linspace (1/10 : ℚ) 10 3)
    (y0NG (22/7 : ℚ) [0, 2] [0, 2] 1 (1/10))
  have hy1 : (y0NG (22/7 : ℚ) [0, 2] [0, 2] 1 (1/10)).1 =
      Mu [(0 : ℚ), 2] [0, 2] 1 := rfl
  have hmuc : Mu [(0 : ℚ), 2] [0, 2] 1 = 1 := by
    norm_num [Mu, interp1d, interp1dGo, List.zip_cons_cons]
  have hp1 : p [(0 : ℚ), 2] [0, 1] 1 = 1/2 := by
    norm_num [p, interp1d, interp1dGo, List.zip_cons_cons]
  refine ⟨?_, hp1, by norm_num, ?_, ?_⟩
  · show (ysSeq stepConst (linspace (1/10 : ℚ) 10 3)
        (y0NG (22/7 : ℚ) [0, 2] [0, 2] 1 (1/10)) 1).1 = 1
    rw [hys 1, hy1, hmuc]
  · rw [runNG_fired]
    have hffn : firstFireNG (22/7 : ℚ) stepConst [0, 2] [0, 2] 1 (1/10)
        (3/4) 3 = none := by
      have hft : fireTest (3/4 : ℚ) 1 = false := by
        rw [fireTest_false_iff]
        norm_num
      unfold firstFireNG
      simp only [firstFireAux]
      rw [hys 1, hys 2, hy1, hmuc, hft]
      simp
    rw [hffn]
    rfl
  · have hft : fireTest (3/4 : ℚ) (p [(0 : ℚ), 2] [0, 1]
        (y0NG (22/7 : ℚ) [0, 2] [0, 2] 1 (1/10)).1) = true := by
      rw [hy1, hmuc, hp1, fireTest_true_iff]
      norm_num
    unfold runNGSpec
    simp only [runLoopAuxSpec]
    rw [show stepConst (y0NG (22/7 : ℚ) [0, 2] [0, 2] 1 (1/10))
        ((linspace (1/10 : ℚ) 10 3).getD 0 0)
        ((linspace (1/10 : ℚ) 10 3).getD 1 0) =
        y0NG (22/7 : ℚ) [0, 2] [0, 2] 1 (1/10) from rfl]
    rw [hft]
    rfl

/-- Counterexample for C2: with the identity toy table, constant solver,
and the tolerance set exactly equal to the extracted value (both 1), the
extracted value equals the tolerance at every step yet the run never
terminates early: the test `pressure < tol` is strict, so
pressure-equal-to-tolerance is NOT treated as vanished and
`pressure <= tolerance` does not imply termination. -/
theorem C2_counterexample :
    (ysSeqNG (22/7 : ℚ) stepConst [0, 2] [0, 2] 1 (1/10) 3 1).1 = 1 ∧
    p [(0 : ℚ), 2] [0, 2] 1 = 1 ∧
    (runNG (22/7 : ℚ) stepConst [0, 2] [0, 2] [0, 2] 1 (1/10) 1 3).fired
        = false := by
  have hys := ysSeq_stepConst (linspace (1/10 : ℚ) 10 3)
    (y0NG (22/7 : ℚ) [0, 2] [0, 2] 1 (1/10))
  have hy1 : (y0NG (22/7 : ℚ) [0, 2] [0, 2] 1 (1/10)).1 =
      Mu [(0 : ℚ), 2] [0, 2] 1 := rfl
  have hmuc : Mu [(0 : ℚ), 2] [0, 2] 1 = 1 := by
    norm_num [Mu, interp1d, interp1dGo, List.zip_cons_cons]
  refine ⟨?_, ?_, ?_⟩
  · show (ysSeq stepConst (linspace (1/10 : ℚ) 10 3)
        (y0NG (22/7 : ℚ) [0, 2] [0, 2] 1 (1/10)) 1).1 = 1
    rw [hys 1, hy1, hmuc]
  · norm_num [p, interp1d, interp1dGo, List.zip_cons_cons]
  · rw [runNG_fired]
    have hffn : firstFireNG (22/7 : ℚ) stepConst [0, 2] [0, 2] 1 (1/10)
        1 3 = none := by
      have hft : fireTest (1 : ℚ) 1 = false := by
        rw [fireTest_false_iff]
      unfold firstFireNG
      simp only [firstFireAux]
      rw [hys 1, hys 2, hy1, hmuc, hft]
      simp
    rw [hffn]
    rfl

/-- C2 amended: the surface test is strict, not inclusive: it fires
exactly when the tested value is strictly below the tolerance (the NaN
disjunct is vacuous over an ordered field), and a value exactly equal to
the tolerance does not terminate. For every run whose first integrated
value is strictly below the tolerance, integration terminates at the very
first grid step with `Rsol` equal to the starting step `stp`. -/
theorem C2_strict_test (pi : ℚ) (step : ℚ × ℚ → ℚ → ℚ → ℚ × ℚ)
    (rhodat mudat pdat : List ℚ) (rhoc stp tol : ℚ) (pts : ℕ)
    (hpts : 2 ≤ pts) :
    (∀ v : ℚ, fireTest tol v = true ↔ v < tol) ∧
    fireTest tol tol = false ∧
    ((ysSeqNG pi step rhodat mudat rhoc stp pts 1).1 < tol →
      (runNG pi step rhodat mudat pdat rhoc stp tol pts).fired = true ∧
      (runNG pi step rhodat mudat pdat rhoc stp tol pts).iFin = 0 ∧
      (runNG pi step rhodat mudat pdat rhoc stp tol pts).Rsol = stp ∧
      (runNG pi step rhodat mudat pdat rhoc stp tol pts).musoldat.length = 1) := by
  refine ⟨fun v => fireTest_true_iff tol v, ?_, ?_⟩
  · rw [fireTest_false_iff]
  · intro hlt
    have hffn : firstFireNG pi step rhodat mudat rhoc stp tol pts = some 0 := by
      obtain ⟨m, hm⟩ : ∃ m, pts - 1 = m + 1 := ⟨pts - 2, by omega⟩
      unfold firstFireNG
      rw [hm, firstFireAux]
      rw [if_pos (by rw [fireTest_true_iff]; exact hlt)]
    refine ⟨?_, ?_, ?_, ?_⟩
    · rw [runNG_fired, hffn]
      rfl
    · rw [runNG_iFin, hffn]
      rfl
    · rw [runNG_Rsol, runNG_fired, runNG_iFin, hffn]
      simp only [Option.isSome_some, Option.getD_some, if_true]
      rw [linspace_getD (by omega : 0 < pts)]
      simp
    · rw [runNG_musoldat, runNG_iFin, hffn]
      simp
  
/-- Witness for C2 amended: tolerance 2 strictly exceeds the first tested
value 1, so the run fires at the first grid step with surface radius equal
to the starting step. -/
theorem C2_strict_test_witness :
    2 ≤ 3 ∧
    (ysSeqNG (22/7 : ℚ) stepConst [0, 2] [0, 2] 1 (1/10) 3 1).1 < 2 ∧
    ((runNG (22/7 : ℚ) stepConst [0, 2] [0, 2] [0, 2] 1 (1/10) 2 3).fired = true ∧
     (runNG (22/7 : ℚ) stepConst [0, 2] [0, 2] [0, 2] 1 (1/10) 2 3).iFin = 0 ∧
     (runNG (22/7 : ℚ) stepConst [0, 2] [0, 2] [0, 2] 1 (1/10) 2 3).Rsol = 1/10 ∧
     (runNG (22/7 : ℚ) stepConst [0, 2] [0, 2] [0, 2] 1 (1/10) 2 3).musoldat.length = 1) := by
  have hlt : (ysSeqNG (22/7 : ℚ) stepConst [0, 2] [0, 2] 1 (1/10) 3 1).1 < 2 := by
    have h1 : (ysSeqNG (22/7 : ℚ) stepConst [0, 2] [0, 2] 1 (1/10) 3 1).1 =
        Mu [(0 : ℚ), 2] [0, 2] 1 := by
      show (ysSeq stepConst (linspace (1/10 : ℚ) 10 3)
          (y0NG (22/7 : ℚ) [0, 2] [0, 2] 1 (1/10)) 1).1 = Mu [(0 : ℚ), 2] [0, 2] 1
      rw [ysSeq_stepConst]
      rfl
    rw [h1]
    norm_num [Mu, interp1d, interp1dGo, List.zip_cons_cons]
  exact ⟨by norm_num, hlt,
    (C2_strict_test (22/7 : ℚ) stepConst [0, 2] [0, 2] [0, 2] 1 (1/10) 2 3
      (by norm_num)).2.2 hlt⟩

/-- C3: whenever the surface test first fires at step `i`, the reported
surface radius `Rsol` equals the previous grid radius `rlist[i]`, and the
stored solution is truncated to exclude the failing point: the truncated
radius, `mu`, and `m` sequences contain exactly the entries at indices
`0` through `i`. -/
theorem C3_surface_truncation (pi : ℚ) (step : ℚ × ℚ → ℚ → ℚ → ℚ × ℚ)
    (rhodat mudat pdat : List ℚ) (rhoc stp tol : ℚ) (pts : ℕ)
    (hf : (runNG pi step rhodat mudat pdat rhoc stp tol pts).fired = true) :
    (runNG pi step rhodat mudat pdat rhoc stp tol pts).Rsol =
        (linspace stp (10 : ℚ) pts).getD
          (runNG pi step rhodat mudat pdat rhoc stp tol pts).iFin 0 ∧
    (runNG pi step rhodat mudat pdat rhoc stp tol pts).rlistT =
        (linspace stp (10 : ℚ) pts).take
          ((runNG pi step rhodat mudat pdat rhoc stp tol pts).iFin + 1) ∧
    (runNG pi step rhodat mudat pdat rhoc stp tol pts).rlistT.length =
        (runNG pi step rhodat mudat pdat rhoc stp tol pts).iFin + 1 ∧
    (runNG pi step rhodat mudat pdat rhoc stp tol pts).musoldat =
        (List.range ((runNG pi step rhodat mudat pdat rhoc stp tol pts).iFin + 1)).map
          (fun j => (ysSeqNG pi step rhodat mudat rhoc stp pts j).1) ∧
    (runNG pi step rhodat mudat pdat rhoc stp tol pts).msoldat =
        (List.range ((runNG pi step rhodat mudat pdat rhoc stp tol pts).iFin + 1)).map
          (fun j => (ysSeqNG pi step rhodat mudat rhoc stp pts j).2) ∧
    (runNG pi step rhodat mudat pdat rhoc stp tol pts).musoldat.length =
        (runNG pi step rhodat mudat pdat rhoc stp tol pts).iFin + 1 ∧
    (runNG pi step rhodat mudat pdat rhoc stp tol pts).msoldat.length =
        (runNG pi step rhodat mudat pdat rhoc stp tol pts).iFin + 1 := by
  rw [runNG_fired] at hf
  obtain ⟨k, hk⟩ := Option.isSome_iff_exists.mp hf
  have hbound := firstFireAux_some hk
  have hkpts : k + 1 < pts := by omega
  have hiFin : (runNG pi step rhodat mudat pdat rhoc stp tol pts).iFin = k := by
    rw [runNG_iFin, hk]
    rfl
  refine ⟨?_, runNG_rlistT pi step rhodat mudat pdat rhoc stp tol pts, ?_, ?_, ?_, ?_, ?_⟩
  · rw [runNG_Rsol, runNG_fired, hk]
    rfl
  · rw [runNG_rlistT, List.length_take, hiFin]
    unfold linspace
    rw [List.length_map, List.length_range]
    omega
  · exact runNG_musoldat pi step rhodat mudat pdat rhoc stp tol pts
  · exact runNG_msoldat pi step rhodat mudat pdat rhoc stp tol pts
  · rw [runNG_musoldat, List.length_map, List.length_range]
  · rw [runNG_msoldat, List.length_map, List.length_range]

/-- Witness for C3: with a halving solver and tolerance 1/3 the test first
fires at step 1 (`mu_2 = 1/4 < 1/3`), and the run truncates to the entries
at indices 0 and 1 with `Rsol = rlist[1]`. -/
theorem C3_surface_truncation_witness :
    (runNG (22/7 : ℚ) stepHalf [0, 2] [0, 2] [0, 1] 1 (1/10) (1/3) 4).fired = true ∧
    ((runNG (22/7 : ℚ) stepHalf [0, 2] [0, 2] [0, 1] 1 (1/10) (1/3) 4).Rsol =
        (linspace (1/10 : ℚ) 10 4).getD
          (runNG (22/7 : ℚ) stepHalf [0, 2] [0, 2] [0, 1] 1 (1/10) (1/3) 4).iFin 0 ∧
     (runNG (22/7 : ℚ) stepHalf [0, 2] [0, 2] [0, 1] 1 (1/10) (1/3) 4).rlistT =
        (linspace (1/10 : ℚ) 10 4).take
          ((runNG (22/7 : ℚ) stepHalf [0, 2] [0, 2] [0, 1] 1 (1/10) (1/3) 4).iFin + 1) ∧
     (runNG (22/7 : ℚ) stepHalf [0, 2] [0, 2] [0, 1] 1 (1/10) (1/3) 4).rlistT.length =
        (runNG (22/7 : ℚ) stepHalf [0, 2] [0, 2] [0, 1] 1 (1/10) (1/3) 4).iFin + 1 ∧
     (runNG (22/7 : ℚ) stepHalf [0, 2] [0, 2] [0, 1] 1 (1/10) (1/3) 4).musoldat =
        (List.range ((runNG (22/7 : ℚ) stepHalf [0, 2] [0, 2] [0, 1] 1 (1/10) (1/3) 4).iFin + 1)).map
          (fun j => (ysSeqNG (22/7 : ℚ) stepHalf [0, 2] [0, 2] 1 (1/10) 4 j).1) ∧
     (runNG (22/7 : ℚ) stepHalf [0, 2] [0, 2] [0, 1] 1 (1/10) (1/3) 4).msoldat =
        (List.range ((runNG (22/7 : ℚ) stepHalf [0, 2] [0, 2] [0, 1] 1 (1/10) (1/3) 4).iFin + 1)).map
          (fun j => (ysSeqNG (22/7 : ℚ) stepHalf [0, 2] [0, 2] 1 (1/10) 4 j).2) ∧
     (runNG (22/7 : ℚ) stepHalf [0, 2] [0, 2] [0, 1] 1 (1/10) (1/3) 4).musoldat.length =
        (runNG (22/7 : ℚ) stepHalf [0, 2] [0, 2] [0, 1] 1 (1/10) (1/3) 4).iFin + 1 ∧
     (runNG (22/7 : ℚ) stepHalf [0, 2] [0, 2] [0, 1] 1 (1/10) (1/3) 4).msoldat.length =
        (runNG (22/7 : ℚ) stepHalf [0, 2] [0, 2] [0, 1] 1 (1/10) (1/3) 4).iFin + 1) := by
  have hy0 : y0NG (22/7 : ℚ) [0, 2] [0, 2] 1 (1/10) =
      (Mu [(0 : ℚ), 2] [0, 2] 1, 4 * (22/7) * (1/10) ^ 3 * Mu [(0 : ℚ), 2] [0, 2] 1 / 3) := rfl
  have hmuc : Mu [(0 : ℚ), 2] [0, 2] 1 = 1 := by
    norm_num [Mu, interp1d, interp1dGo, List.zip_cons_cons]
  have hys := ysSeq_stepHalf (linspace (1/10 : ℚ) 10 4)
    (y0NG (22/7 : ℚ) [0, 2] [0, 2] 1 (1/10))
  have hy1 : (y0NG (22/7 : ℚ) [0, 2] [0, 2] 1 (1/10)).1 = 1 := by
    rw [hy0, hmuc]
  have hft1 : fireTest (1/3 : ℚ)
      (ysSeq stepHalf (linspace (1/10 : ℚ) 10 4)
        (y0NG (22/7 : ℚ) [0, 2] [0, 2] 1 (1/10)) 1).1 = false := by
    rw [hys 1]
    show fireTest (1/3 : ℚ) ((y0NG (22/7 : ℚ) [0, 2] [0, 2] 1 (1/10)).1 / 2 ^ 1) = false
    rw [hy1, fireTest_false_iff]
    norm_num
  have hft2 : fireTest (1/3 : ℚ)
      (ysSeq stepHalf (linspace (1/10 : ℚ) 10 4)
        (y0NG (22/7 : ℚ) [0, 2] [0, 2] 1 (1/10)) 2).1 = true := by
    rw [hys 2]
    show fireTest (1/3 : ℚ) ((y0NG (22/7 : ℚ) [0, 2] [0, 2] 1 (1/10)).1 / 2 ^ 2) = true
    rw [hy1, fireTest_true_iff]
    norm_num
  have hf : (runNG (22/7 : ℚ) stepHalf [0, 2] [0, 2] [0, 1] 1 (1/10) (1/3) 4).fired = true := by
    rw [runNG_fired]
    have hffn : firstFireNG (22/7 : ℚ) stepHalf [0, 2] [0, 2] 1 (1/10) (1/3) 4 = some 1 := by
      unfold firstFireNG
      simp only [firstFireAux]
      rw [hft1, hft2]
      simp
    rw [hffn]
    rfl
  exact ⟨hf, C3_surface_truncation (22/7 : ℚ) stepHalf [0, 2] [0, 2] [0, 1] 1 (1/10) (1/3) 4 hf⟩

/-- C4: if no grid point triggers the surface test before the grid is
exhausted, the run completes as a soft failure rather than raising an
error: `runNGChecked` still returns a result, with the surface radius
defaulting to the last grid radius of the configured grid (the NG variant
initializes `Rsol = rlist[-1]`). -/
theorem C4_soft_exhaustion (pi : ℚ) (step : ℚ × ℚ → ℚ → ℚ → ℚ × ℚ)
    (rhodat mudat pdat : List ℚ) (rhoc stp tol : ℚ) (pts : ℕ)
    (hr : 2 ≤ rhodat.length) (hm : 2 ≤ mudat.length)
    (hnf : (runNG pi step rhodat mudat pdat rhoc stp tol pts).fired = false) :
    runNGChecked pi step rhodat mudat pdat rhoc stp tol pts =
        some (runNG pi step rhodat mudat pdat rhoc stp tol pts) ∧
    (runNG pi step rhodat mudat pdat rhoc stp tol pts).Rsol =
        (linspace stp (10 : ℚ) pts).getD (pts - 1) 0 := by
  constructor
  · unfold runNGChecked
    rw [if_pos ⟨hr, hm⟩]
  · rw [runNG_Rsol, hnf]
    simp

/-- Witness for C4: a run with the identity toy table whose tested value
stays at 1, far above the tolerance, exhausts the grid and still returns a
result with `Rsol` at the last grid point. -/
theorem C4_soft_exhaustion_witness :
    2 ≤ ([(0 : ℚ), 2] : List ℚ).length ∧
    (runNG (22/7 : ℚ) stepConst [0, 2] [0, 2] [0, 2] 1 (1/10) (1/1000000) 3).fired
        = false ∧
    (runNGChecked (22/7 : ℚ) stepConst [0, 2] [0, 2] [0, 2] 1 (1/10) (1/1000000) 3 =
        some (runNG (22/7 : ℚ) stepConst [0, 2] [0, 2] [0, 2] 1 (1/10) (1/1000000) 3) ∧
     (runNG (22/7 : ℚ) stepConst [0, 2] [0, 2] [0, 2] 1 (1/10) (1/1000000) 3).Rsol =
        (linspace (1/10 : ℚ) 10 3).getD 2 0) := by
  have hys := ysSeq_stepConst (linspace (1/10 : ℚ) 10 3)
    (y0NG (22/7 : ℚ) [0, 2] [0, 2] 1 (1/10))
  have hy1 : (y0NG (22/7 : ℚ) [0, 2] [0, 2] 1 (1/10)).1 =
      Mu [(0 : ℚ), 2] [0, 2] 1 := rfl
  have hmuc : Mu [(0 : ℚ), 2] [0, 2] 1 = 1 := by
    norm_num [Mu, interp1d, interp1dGo, List.zip_cons_cons]
  have hnf : (runNG (22/7 : ℚ) stepConst [0, 2] [0, 2] [0, 2] 1 (1/10)
      (1/1000000) 3).fired = false := by
    rw [runNG_fired]
    have hffn : firstFireNG (22/7 : ℚ) stepConst [0, 2] [0, 2] 1 (1/10)
        (1/1000000) 3 = none := by
      have hft : fireTest (1/1000000 : ℚ) 1 = false := by
        rw [fireTest_false_iff]
        norm_num
      unfold firstFireNG
      simp only [firstFireAux]
      rw [hys 1, hys 2, hy1, hmuc, hft]
      simp
    rw [hffn]
    rfl
  exact ⟨by norm_num, hnf,
    C4_soft_exhaustion (22/7 : ℚ) stepConst [0, 2] [0, 2] [0, 2] 1 (1/10)
      (1/1000000) 3 (by norm_num) (by norm_num) hnf⟩

/-- C10: when the surface test never fires, the loop exhausts at index
`pts - 2` and the truncation keeps only the entries at indices
`0 .. pts-2`, discarding the last computed state; `Rsol` remains the
untruncated last grid radius, which lies strictly outside the truncated
interpolants' domain, so `Msol = msol(Rsol)` equals the clamp fill value
`msoldat[-1]` (the enclosed mass at the second-to-last grid point), while
`musol` and `psol` are undefined at `Rsol`. -/
theorem C10_exhaustion_clamp (pi : ℚ) (step : ℚ × ℚ → ℚ → ℚ → ℚ × ℚ)
    (rhodat mudat pdat : List ℚ) (rhoc stp tol : ℚ) (pts : ℕ)
    (hpts : 2 ≤ pts) (hstp : stp < 10)
    (hnf : (runNG pi step rhodat mudat pdat rhoc stp tol pts).fired = false) :
    (runNG pi step rhodat mudat pdat rhoc stp tol pts).iFin = pts - 2 ∧
    (runNG pi step rhodat mudat pdat rhoc stp tol pts).rlistT.length = pts - 1 ∧
    (runNG pi step rhodat mudat pdat rhoc stp tol pts).musoldat.length = pts - 1 ∧
    (runNG pi step rhodat mudat pdat rhoc stp tol pts).msoldat.length = pts - 1 ∧
    (runNG pi step rhodat mudat pdat rhoc stp tol pts).Rsol =
        (linspace stp (10 : ℚ) pts).getD (pts - 1) 0 ∧
    (runNG pi step rhodat mudat pdat rhoc stp tol pts).Msol =
        (runNG pi step rhodat mudat pdat rhoc stp tol pts).msoldat.getLastD 0 ∧
    (runNG pi step rhodat mudat pdat rhoc stp tol pts).msoldat.getLastD 0 =
        (ysSeqNG pi step rhodat mudat rhoc stp pts (pts - 2)).2 ∧
    musol (runNG pi step rhodat mudat pdat rhoc stp tol pts)
        (runNG pi step rhodat mudat pdat rhoc stp tol pts).Rsol = none ∧
    psol mudat pdat (runNG pi step rhodat mudat pdat rhoc stp tol pts)
        (runNG pi step rhodat mudat pdat rhoc stp tol pts).Rsol = none := by
  have hffn : firstFireNG pi step rhodat mudat rhoc stp tol pts = none := by
    rw [runNG_fired] at hnf
    exact Option.not_isSome_iff_eq_none.mp (by rw [hnf]; exact Bool.false_ne_true)
  have hiFin : (runNG pi step rhodat mudat pdat rhoc stp tol pts).iFin = pts - 2 := by
    rw [runNG_iFin, hffn]
    rfl
  have hlen : (linspace stp (10 : ℚ) pts).length = pts := by
    unfold linspace
    rw [List.length_map, List.length_range]
  have hRsol : (runNG pi step rhodat mudat pdat rhoc stp tol pts).Rsol =
      (linspace stp (10 : ℚ) pts).getD (pts - 1) 0 := by
    rw [runNG_Rsol, hnf]
    simp
  have hRsol10 : (runNG pi step rhodat mudat pdat rhoc stp tol pts).Rsol = 10 := by
    rw [hRsol, linspace_last hpts]
  have hrlT : (runNG pi step rhodat mudat pdat rhoc stp tol pts).rlistT =
      (List.range (pts - 1)).map
        (fun k : ℕ => stp + ((10 : ℚ) - stp) * (k : ℚ) / ((pts : ℚ) - 1)) := by
    rw [runNG_rlistT, hiFin]
    unfold linspace
    rw [take_range_map]
    congr 2
    omega
  have hmem_lt : ∀ z ∈ (runNG pi step rhodat mudat pdat rhoc stp tol pts).rlistT,
      z < (runNG pi step rhodat mudat pdat rhoc stp tol pts).Rsol := by
    intro z hz
    rw [hrlT] at hz
    obtain ⟨k, hk, rfl⟩ := List.mem_map.mp hz
    rw [List.mem_range] at hk
    rw [hRsol10]
    exact linspace_val_lt hpts hk hstp
  have hlastT : (runNG pi step rhodat mudat pdat rhoc stp tol pts).rlistT.getLast? =
      some (stp + ((10 : ℚ) - stp) * ((pts - 2 : ℕ) : ℚ) / ((pts : ℚ) - 1)) := by
    rw [hrlT]
    have h1 : pts - 1 = (pts - 2) + 1 := by omega
    rw [h1, getLast?_map_range]
  have hlast_lt : stp + ((10 : ℚ) - stp) * ((pts - 2 : ℕ) : ℚ) / ((pts : ℚ) - 1) <
      (runNG pi step rhodat mudat pdat rhoc stp tol pts).Rsol := by
    rw [hRsol10]
    exact linspace_val_lt hpts (by omega) hstp
  refine ⟨hiFin, ?_, ?_, ?_, hRsol, ?_, ?_, ?_, ?_⟩
  · rw [runNG_rlistT, hiFin, List.length_take, hlen]
    omega
  · rw [runNG_musoldat, hiFin, List.length_map, List.length_range]
    omega
  · rw [runNG_msoldat, hiFin, List.length_map, List.length_range]
    omega
  · rw [runNG_Msol]
    exact interp1d_gt hmem_lt
  · rw [runNG_msoldat, hiFin]
    have h1 : pts - 2 + 1 = (pts - 2) + 1 := rfl
    rw [h1, getLastD_map_range]
  · unfold musol
    exact interp1dStrict_gt_last hlastT hlast_lt
  · unfold psol
    exact interp1dStrict_gt_last hlastT hlast_lt

/-- Witness for C10 at a concrete never-firing run with three grid
points. -/
theorem C10_exhaustion_clamp_witness :
    2 ≤ 3 ∧ (1/10 : ℚ) < 10 ∧
    (runNG (22/7 : ℚ) stepConst [0, 2] [0, 2] [0, 1] 1 (1/10) (1/1000000) 3).fired
        = false ∧
    ((runNG (22/7 : ℚ) stepConst [0, 2] [0, 2] [0, 1] 1 (1/10) (1/1000000) 3).iFin = 3 - 2 ∧
     (runNG (22/7 : ℚ) stepConst [0, 2] [0, 2] [0, 1] 1 (1/10) (1/1000000) 3).rlistT.length = 3 - 1 ∧
     (runNG (22/7 : ℚ) stepConst [0, 2] [0, 2] [0, 1] 1 (1/10) (1/1000000) 3).musoldat.length = 3 - 1 ∧
     (runNG (22/7 : ℚ) stepConst [0, 2] [0, 2] [0, 1] 1 (1/10) (1/1000000) 3).msoldat.length = 3 - 1 ∧
     (runNG (22/7 : ℚ) stepConst [0, 2] [0, 2] [0, 1] 1 (1/10) (1/1000000) 3).Rsol =
        (linspace (1/10 : ℚ) 10 3).getD (3 - 1) 0 ∧
     (runNG (22/7 : ℚ) stepConst [0, 2] [0, 2] [0, 1] 1 (1/10) (1/1000000) 3).Msol =
        (runNG (22/7 : ℚ) stepConst [0, 2] [0, 2] [0, 1] 1 (1/10) (1/1000000) 3).msoldat.getLastD 0 ∧
     (runNG (22/7 : ℚ) stepConst [0, 2] [0, 2] [0, 1] 1 (1/10) (1/1000000) 3).msoldat.getLastD 0 =
        (ysSeqNG (22/7 : ℚ) stepConst [0, 2] [0, 2] 1 (1/10) 3 (3 - 2)).2 ∧
     musol (runNG (22/7 : ℚ) stepConst [0, 2] [0, 2] [0, 1] 1 (1/10) (1/1000000) 3)
        (runNG (22/7 : ℚ) stepConst [0, 2] [0, 2] [0, 1] 1 (1/10) (1/1000000) 3).Rsol = none ∧
     psol [0, 2] [0, 1] (runNG (22/7 : ℚ) stepConst [0, 2] [0, 2] [0, 1] 1 (1/10) (1/1000000) 3)
        (runNG (22/7 : ℚ) stepConst [0, 2] [0, 2] [0, 1] 1 (1/10) (1/1000000) 3).Rsol = none) := by
  have hys := ysSeq_stepConst (linspace (1/10 : ℚ) 10 3)
    (y0NG (22/7 : ℚ) [0, 2] [0, 2] 1 (1/10))
  have hy1 : (y0NG (22/7 : ℚ) [0, 2] [0, 2] 1 (1/10)).1 =
      Mu [(0 : ℚ), 2] [0, 2] 1 := rfl
  have hmuc : Mu [(0 : ℚ), 2] [0, 2] 1 = 1 := by
    norm_num [Mu, interp1d, interp1dGo, List.zip_cons_cons]
  have hnf : (runNG (22/7 : ℚ) stepConst [0, 2] [0, 2] [0, 1] 1 (1/10)
      (1/1000000) 3).fired = false := by
    rw [runNG_fired]
    have hffn : firstFireNG (22/7 : ℚ) stepConst [0, 2] [0, 2] 1 (1/10)
        (1/1000000) 3 = none := by
      have hft : fireTest (1/1000000 : ℚ) 1 = false := by
        rw [fireTest_false_iff]
        norm_num
      unfold firstFireNG
      simp only [firstFireAux]
      rw [hys 1, hys 2, hy1, hmuc, hft]
      simp
    rw [hffn]
    rfl
  exact ⟨by norm_num, by norm_num, hnf,
    C10_exhaustion_clamp (22/7 : ℚ) stepConst [0, 2] [0, 2] [0, 1] 1 (1/10)
      (1/1000000) 3 (by norm_num) (by norm_num) hnf⟩

/-- Counterexample for C8: the loop enforces no monotonicity. With a
solver step that increases the energy density and decreases the mass (an
output the loop accepts unexamined, since the test only fires below the
tolerance), the truncated solution of the run violates every part of the
claimed invariant: the mass sequence decreases (and goes negative) and
the energy-density sequence increases. -/
theorem C8_counterexample :
    ¬ (nonNeg (runNG (22/7 : ℚ) stepBad [0, 2] [0, 2] [0, 1] 1 (1/10)
          (1/1000000) 3).msoldat ∧
       nonDecr (runNG (22/7 : ℚ) stepBad [0, 2] [0, 2] [0, 1] 1 (1/10)
          (1/1000000) 3).msoldat ∧
       nonNeg (runNG (22/7 : ℚ) stepBad [0, 2] [0, 2] [0, 1] 1 (1/10)
          (1/1000000) 3).musoldat ∧
       nonIncr (runNG (22/7 : ℚ) stepBad [0, 2] [0, 2] [0, 1] 1 (1/10)
          (1/1000000) 3).musoldat) := by
  have hys := ysSeq_stepBad (linspace (1/10 : ℚ) 10 3)
    (y0NG (22/7 : ℚ) [0, 2] [0, 2] 1 (1/10))
  have hmuc : Mu [(0 : ℚ), 2] [0, 2] 1 = 1 := by
    norm_num [Mu, interp1d, interp1dGo, List.zip_cons_cons]
  have hy1 : (y0NG (22/7 : ℚ) [0, 2] [0, 2] 1 (1/10)).1 = 1 := by
    show Mu [(0 : ℚ), 2] [0, 2] 1 = 1
    exact hmuc
  have hv1 : (ysSeq stepBad (linspace (1/10 : ℚ) 10 3)
      (y0NG (22/7 : ℚ) [0, 2] [0, 2] 1 (1/10)) 1).1 = 2 := by
    rw [hys 1]
    show (y0NG (22/7 : ℚ) [0, 2] [0, 2] 1 (1/10)).1 + ((1 : ℕ) : ℚ) = 2
    rw [hy1]
    norm_num
  have hv2 : (ysSeq stepBad (linspace (1/10 : ℚ) 10 3)
      (y0NG (22/7 : ℚ) [0, 2] [0, 2] 1 (1/10)) 2).1 = 3 := by
    rw [hys 2]
    show (y0NG (22/7 : ℚ) [0, 2] [0, 2] 1 (1/10)).1 + ((2 : ℕ) : ℚ) = 3
    rw [hy1]
    norm_num
  have hnf : firstFireNG (22/7 : ℚ) stepBad [0, 2] [0, 2] 1 (1/10)
      (1/1000000) 3 = none := by
    have hft1 : fireTest (1/1000000 : ℚ)
        (ysSeq stepBad (linspace (1/10 : ℚ) 10 3)
          (y0NG (22/7 : ℚ) [0, 2] [0, 2] 1 (1/10)) 1).1 = false := by
      rw [hv1, fireTest_false_iff]
      norm_num
    have hft2 : fireTest (1/1000000 : ℚ)
        (ysSeq stepBad (linspace (1/10 : ℚ) 10 3)
          (y0NG (22/7 : ℚ) [0, 2] [0, 2] 1 (1/10)) 2).1 = false := by
      rw [hv2, fireTest_false_iff]
      norm_num
    unfold firstFireNG
    simp only [firstFireAux]
    rw [hft1, hft2]
    simp
  have hiFin : (runNG (22/7 : ℚ) stepBad [0, 2] [0, 2] [0, 1] 1 (1/10)
      (1/1000000) 3).iFin = 1 := by
    rw [runNG_iFin, hnf]
    rfl
  have hmus : (runNG (22/7 : ℚ) stepBad [0, 2] [0, 2] [0, 1] 1 (1/10)
      (1/1000000) 3).musoldat = [1, 2] := by
    rw [runNG_musoldat, hiFin]
    have h0 : (ysSeqNG (22/7 : ℚ) stepBad [0, 2] [0, 2] 1 (1/10) 3 0).1 = 1 := hy1
    have h1 : (ysSeqNG (22/7 : ℚ) stepBad [0, 2] [0, 2] 1 (1/10) 3 1).1 = 2 := hv1
    have hr2 : List.range 2 = [0, 1] := by simp [List.range_succ]
    rw [hr2, List.map_cons, List.map_cons, List.map_nil, h0, h1]
  intro hcl
  obtain ⟨-, -, -, hmono⟩ := hcl
  rw [hmus] at hmono
  unfold nonIncr at hmono
  rw [List.chain'_cons] at hmono
  obtain ⟨h21, -⟩ := hmono
  norm_num at h21

/-- C8 amended: the code does not enforce the monotonicity invariant; it
holds conditionally on the solver. If the one-step solver map never
increases the energy density, preserves its non-negativity, and never
decreases the mass, and the central data are non-negative, then across
the truncated solution of the run the mass sequence is non-negative and
non-decreasing and the energy-density sequence is non-negative and
non-increasing. (The counterexample shows the invariant fails for a
solver output violating these conditions.) -/
theorem C8_conditional_invariant (pi : ℚ) (step : ℚ × ℚ → ℚ → ℚ → ℚ × ℚ)
    (rhodat mudat pdat : List ℚ) (rhoc stp tol : ℚ) (pts : ℕ)
    (hdec : ∀ (y : ℚ × ℚ) (r1 r2 : ℚ), (step y r1 r2).1 ≤ y.1)
    (hpres : ∀ (y : ℚ × ℚ) (r1 r2 : ℚ), 0 ≤ y.1 → 0 ≤ (step y r1 r2).1)
    (hgrow : ∀ (y : ℚ × ℚ) (r1 r2 : ℚ), y.2 ≤ (step y r1 r2).2)
    (hmuc : 0 ≤ Mu rhodat mudat rhoc) (hpi : 0 ≤ pi) (hstp : 0 ≤ stp) :
    nonNeg (runNG pi step rhodat mudat pdat rhoc stp tol pts).msoldat ∧
    nonDecr (runNG pi step rhodat mudat pdat rhoc stp tol pts).msoldat ∧
    nonNeg (runNG pi step rhodat mudat pdat rhoc stp tol pts).musoldat ∧
    nonIncr (runNG pi step rhodat mudat pdat rhoc stp tol pts).musoldat := by
  have hf0mu : (ysSeqNG pi step rhodat mudat rhoc stp pts 0).1 =
      Mu rhodat mudat rhoc := rfl
  have hf0m : (ysSeqNG pi step rhodat mudat rhoc stp pts 0).2 =
      4 * pi * stp ^ 3 * Mu rhodat mudat rhoc / 3 := rfl
  have hfs : ∀ j, ysSeqNG pi step rhodat mudat rhoc stp pts (j + 1) =
      step (ysSeqNG pi step rhodat mudat rhoc stp pts j)
        ((linspace stp (10 : ℚ) pts).getD j 0)
        ((linspace stp (10 : ℚ) pts).getD (j + 1) 0) := fun j => rfl
  have hmu_nn : ∀ j, 0 ≤ (ysSeqNG pi step rhodat mudat rhoc stp pts j).1 := by
    intro j
    induction j with
    | zero => rw [hf0mu]; exact hmuc
    | succ n ih =>
        rw [hfs n]
        exact hpres _ _ _ ih
  have hmu_step : ∀ j, (ysSeqNG pi step rhodat mudat rhoc stp pts (j + 1)).1 ≤
      (ysSeqNG pi step rhodat mudat rhoc stp pts j).1 := by
    intro j
    rw [hfs j]
    exact hdec _ _ _
  have hm0 : 0 ≤ (ysSeqNG pi step rhodat mudat rhoc stp pts 0).2 := by
    rw [hf0m]
    apply div_nonneg _ (by norm_num : (0 : ℚ) ≤ 3)
    exact mul_nonneg (mul_nonneg (mul_nonneg (by norm_num) hpi)
      (pow_nonneg hstp 3)) hmuc
  have hm_step : ∀ j, (ysSeqNG pi step rhodat mudat rhoc stp pts j).2 ≤
      (ysSeqNG pi step rhodat mudat rhoc stp pts (j + 1)).2 := by
    intro j
    rw [hfs j]
    exact hgrow _ _ _
  have hm_nn : ∀ j, 0 ≤ (ysSeqNG pi step rhodat mudat rhoc stp pts j).2 := by
    intro j
    induction j with
    | zero => exact hm0
    | succ n ih => exact le_trans ih (hm_step n)
  refine ⟨?_, ?_, ?_, ?_⟩
  · rw [runNG_msoldat]
    unfold nonNeg
    intro x hx
    obtain ⟨j, hj, rfl⟩ := List.mem_map.mp hx
    exact hm_nn j
  · rw [runNG_msoldat]
    unfold nonDecr
    exact chain'_map_range _ _ (fun j => hm_step j)
  · rw [runNG_musoldat]
    unfold nonNeg
    intro x hx
    obtain ⟨j, hj, rfl⟩ := List.mem_map.mp hx
    exact hmu_nn j
  · rw [runNG_musoldat]
    unfold nonIncr
    exact chain'_map_range _ _ (fun j => hmu_step j)

/-- Witness for C8 amended: the constant solver satisfies the monotonicity
and positivity side conditions, so the truncated solution of its run
satisfies the invariant. -/
theorem C8_conditional_invariant_witness :
    (∀ (y : ℚ × ℚ) (r1 r2 : ℚ), (stepConst y r1 r2).1 ≤ y.1) ∧
    (∀ (y : ℚ × ℚ) (r1 r2 : ℚ), 0 ≤ y.1 → 0 ≤ (stepConst y r1 r2).1) ∧
    (∀ (y : ℚ × ℚ) (r1 r2 : ℚ), y.2 ≤ (stepConst y r1 r2).2) ∧
    0 ≤ Mu [(0 : ℚ), 2] [0, 2] 1 ∧ (0 : ℚ) ≤ 22/7 ∧ (0 : ℚ) ≤ 1/10 ∧
    (nonNeg (runNG (22/7 : ℚ) stepConst [0, 2] [0, 2] [0, 2] 1 (1/10)
        (1/1000000) 3).msoldat ∧
     nonDecr (runNG (22/7 : ℚ) stepConst [0, 2] [0, 2] [0, 2] 1 (1/10)
        (1/1000000) 3).msoldat ∧
     nonNeg (runNG (22/7 : ℚ) stepConst [0, 2] [0, 2] [0, 2] 1 (1/10)
        (1/1000000) 3).musoldat ∧
     nonIncr (runNG (22/7 : ℚ) stepConst [0, 2] [0, 2] [0, 2] 1 (1/10)
        (1/1000000) 3).musoldat) := by
  have h1 : ∀ (y : ℚ × ℚ) (r1 r2 : ℚ), (stepConst y r1 r2).1 ≤ y.1 :=
    fun _ _ _ => le_rfl
  have h2 : ∀ (y : ℚ × ℚ) (r1 r2 : ℚ), 0 ≤ y.1 → 0 ≤ (stepConst y r1 r2).1 :=
    fun _ _ _ h => h
  have h3 : ∀ (y : ℚ × ℚ) (r1 r2 : ℚ), y.2 ≤ (stepConst y r1 r2).2 :=
    fun _ _ _ => le_rfl
  have h4 : 0 ≤ Mu [(0 : ℚ), 2] [0, 2] 1 := by
    norm_num [Mu, interp1d, interp1dGo, List.zip_cons_cons]
  exact ⟨h1, h2, h3, h4, by norm_num, by norm_num,
    C8_conditional_invariant (22/7 : ℚ) stepConst [0, 2] [0, 2] [0, 2] 1
      (1/10) (1/1000000) 3 h1 h2 h3 h4 (by norm_num) (by norm_num)⟩

end StellarStruc
